import Mathlib

/-!
Shallow embedding of the FITS-band acquisition and RGB composition pipeline
of `src/hubble_data_viewer2.py` (Hubble Data Explorer dashboard).

Conventions of the embedding:
* IEEE floating-point values are modelled by `FV`: an exact rational for a
  finite float, plus the special values NaN, +inf, -inf.  The operations the
  pipeline performs (percentile interpolation, clipping, subtraction,
  division) are exact on rationals except for rounding, which does not affect
  any of the properties verified here (sign, ordering, boundedness and the
  0/0 = NaN rule are rounding-independent).
* numpy array values are modelled by `NDArr`: a shape together with the
  flattened list of entries (numpy's elementwise operations act on the
  flattened data and preserve the shape; `np.percentile` with the default
  axis flattens).
* External collaborators (MAST queries, `download_file`/`fits.open`,
  `make_lupton_rgb`) are parameters of the embedded functions: each is a
  value of an explicit oracle type describing one behaviour of the
  collaborator, and the theorems quantify over them.
* Exceptions are modelled with `Except String`; a Python `try/except` is a
  `match` on the `Except` value.
-/

deriving instance DecidableEq for Except

namespace HubbleViewer

/-- Model of an IEEE double: an exact rational, or one of the special values. -/
inductive FV where
  | fin (q : ℚ)
  | nan
  | pinf
  | ninf
deriving DecidableEq

/-- Largest finite IEEE double, the value `np.nan_to_num` substitutes for +inf. -/
def FLOAT_MAX : ℚ := (2 ^ (53 : ℕ) - 1) * 2 ^ (971 : ℕ)

/-- `np.nan_to_num` on one element: NaN becomes 0, infinities become the
largest-magnitude finite doubles, finite values are unchanged. -/
def nan_to_num : FV → ℚ
  | .fin q => q
  | .nan => 0
  | .pinf => FLOAT_MAX
  | .ninf => -FLOAT_MAX

/-- IEEE division of two finite doubles: `0/0 = NaN`, `x/0 = ±inf` for `x ≠ 0`,
otherwise the exact quotient. -/
def fdiv (a b : ℚ) : FV :=
  if b = 0 then
    if a = 0 then .nan else if 0 < a then .pinf else .ninf
  else .fin (a / b)

/-- `np.clip(x, lo, hi)` on one element: `minimum(maximum(x, lo), hi)`. -/
def clip (x lo hi : ℚ) : ℚ := min (max x lo) hi

/-- Linear interpolation of a sorted flattened array at virtual index `h`,
as numpy's default (`linear`) percentile method does:
`ys[floor h] + (h - floor h) * (ys[ceil h] - ys[floor h])`. -/
def percAt (ys : List ℚ) (h : ℚ) : ℚ :=
  ys.getD (Int.toNat ⌊h⌋) 0 +
    (h - (⌊h⌋ : ℚ)) * (ys.getD (Int.toNat ⌈h⌉) 0 - ys.getD (Int.toNat ⌊h⌋) 0)

/-- `np.percentile(xs, q)` (default linear interpolation): sort the flattened
data and interpolate at virtual index `q/100 * (n-1)`. -/
def percentile (xs : List ℚ) (q : ℚ) : ℚ :=
  percAt (xs.insertionSort (· ≤ ·)) (q / 100 * ((xs.length : ℚ) - 1))

/-- A numpy ndarray: its shape and its flattened entries. -/
structure NDArr where
  shape : List ℕ
  flat : List FV
deriving DecidableEq

/-- `ndarray.size`: the product of the dimensions. -/
def NDArr.size (a : NDArr) : ℕ := a.shape.prod

/-- The elementwise body of `safe_normalize`'s last two lines: clip one value
to `[p_low, p_high]` and rescale it by `(v - p_low) / (p_high - p_low)`. -/
def normScale (p_low p_high x : ℚ) : FV :=
  fdiv (clip x p_low p_high - p_low) (p_high - p_low)

/-- `safe_normalize` from `create_rgb_image` (lines 184-191):
`None` passes through; otherwise `nan_to_num`, take the 1st and 99th
percentile, clip to them, and rescale by `(data - p_low) / (p_high - p_low)`.
`np.percentile` of an empty array raises, which the caller's `try` catches. -/
def safe_normalize (data : Option NDArr) : Except String (Option NDArr) :=
  match data with
  | none => .ok none
  | some a =>
    let q := a.flat.map nan_to_num
    if q.isEmpty then .error "IndexError"
    else
      let p_low := percentile q 1
      let p_high := percentile q 99
      .ok (some ⟨a.shape, q.map (normScale p_low p_high)⟩)

/-- `create_rgb_image` (lines 181-204), parameterized by the behaviour of the
external `make_lupton_rgb`.  Each band is normalized; if normalization raised,
the outer `try` returns `None`; if any normalized band is `None`, return
`None`; otherwise call `make_lupton_rgb`, returning `None` if it raised. -/
def create_rgb_image (lupton : NDArr → NDArr → NDArr → ℚ → ℚ → Except String NDArr)
    (r_data g_data b_data : Option NDArr) (stretch Q : ℚ) : Option NDArr :=
  match safe_normalize r_data with
  | .error _ => none
  | .ok r_norm =>
    match safe_normalize g_data with
    | .error _ => none
    | .ok g_norm =>
      match safe_normalize b_data with
      | .error _ => none
      | .ok b_norm =>
        match r_norm, g_norm, b_norm with
        | some rv, some gv, some bv =>
          match lupton rv gv bv stretch Q with
          | .ok rgb => some rgb
          | .error _ => none
        | _, _, _ => none

/-- Truthiness of one float value (`bool(x)`): nonzero is truthy; NaN and the
infinities are truthy. -/
def fvTruthy : FV → Bool
  | .fin q => decide (q ≠ 0)
  | _ => true

/-- `bool(ndarray)`: defined only for single-element arrays; any other size
raises `ValueError` (ambiguous truth value). -/
def ndarray_truth (a : NDArr) : Except String Bool :=
  if a.size = 1 then .ok (fvTruthy (a.flat.headD (.fin 0)))
  else .error "ValueError: ambiguous truth value of an array"

/-- Truthiness of one entry of `bands_data.values()`: `None` is falsy, an
array delegates to `bool(ndarray)`. -/
def py_truthy : Option NDArr → Except String Bool
  | none => .ok false
  | some a => ndarray_truth a

/-- Python `all(...)` over the band values: test truthiness in order,
short-circuiting at the first falsy element; a raised `ValueError`
propagates. -/
def py_all : List (Option NDArr) → Except String Bool
  | [] => .ok true
  | x :: xs =>
    match py_truthy x with
    | .error e => .error e
    | .ok true => py_all xs
    | .ok false => .ok false

/-- Outcome of the tab-1 composition step when no exception escapes. -/
inductive Tab1Outcome where
  | rendered (rgb : NDArr)
  | composeFailed
  | loadFailedMsg
deriving DecidableEq

/-- The tab-1 main logic after the three band loads (lines 241-265):
`if all(bands_data.values()):` invoke `create_rgb_image` and render the
result, `else` show the "Failed to load one or more FITS files" message.
The `all(...)` test itself may raise (there is no `try` around it). -/
def tab1_compose_step (lupton : NDArr → NDArr → NDArr → ℚ → ℚ → Except String NDArr)
    (stretch Q : ℚ) (red green blue : Option NDArr) : Except String Tab1Outcome :=
  match py_all [red, green, blue] with
  | .error e => .error e
  | .ok true =>
    match create_rgb_image lupton red green blue stretch Q with
    | some rgb => .ok (.rendered rgb)
    | none => .ok .composeFailed
  | .ok false => .ok .loadFailedMsg

/-- A FITS header: a mapping from keyword to scalar metadata. -/
abbrev Header := List (String × String)

/-- One extension (HDU) of a decoded FITS container: optional array data and
a header. -/
structure Hdu where
  data : Option NDArr
  header : Header
deriving DecidableEq

/-- A decoded FITS container: its extensions in order. -/
abbrev Hdul := List Hdu

/-- The extension scan of `load_fits_from_url` (lines 147-149): return the
data and header of the first extension whose `data` is not `None` and has at
least 2 dimensions. -/
def firstImage : Hdul → Option (NDArr × Header)
  | [] => none
  | e :: rest =>
    match e.data with
    | some a => if 2 ≤ a.shape.length then some (a, e.header) else firstImage rest
    | none => firstImage rest

/-- What `load_fits_from_url` returns. -/
inductive LoadRet where
  | found (data : NDArr) (hdr : Header)
  | noImage
  | failWarn (e : String)
  | bare
deriving DecidableEq

/-- `found d h` models `return ext.data, ext.header`; `noImage` models the
`return None, None` after the scan found no valid extension; `failWarn e`
models the `st.warning` followed by `return None, None` when the retry budget
is exhausted; `bare` models falling off the end of the function (the loop
body never ran), which in Python returns the bare value `None`. -/
structure LoadTrace where
  result : LoadRet
  attempts : ℕ
  sleeps : ℕ
deriving DecidableEq

/-- The retry loop of `load_fits_from_url` (lines 142-156), with the `for
attempt in range(max_retries)` loop rendered as structural recursion on the
number of remaining iterations (`remaining = max_retries - attempt`).  The
oracle `fetch` gives, per attempt index, the outcome of
`download_file` + `fits.open`: either a raised exception or a decoded
container.  The trace counts executed attempts and `time.sleep(1)` calls. -/
def loadGo (fetch : ℕ → Except String Hdul) (attempt : ℕ) : ℕ → LoadTrace
  | 0 => ⟨.bare, 0, 0⟩
  | remaining + 1 =>
    match fetch attempt with
    | .ok hdul =>
      match firstImage hdul with
      | some dh => ⟨.found dh.1 dh.2, 1, 0⟩
      | none => ⟨.noImage, 1, 0⟩
    | .error e =>
      if 0 < remaining then
        let t := loadGo fetch (attempt + 1) remaining
        ⟨t.result, t.attempts + 1, t.sleeps + 1⟩
      else ⟨.failWarn e, 1, 0⟩

/-- `load_fits_from_url(url, max_retries=2)`: run the retry loop from attempt
0.  `max_retries` is a Python `int`, so it may be non-positive, in which case
`range(max_retries)` is empty. -/
def load_fits_from_url (fetch : ℕ → Except String Hdul) (max_retries : ℤ) : LoadTrace :=
  loadGo fetch 0 max_retries.toNat

/-- One row of the MAST observation table: the field the pipeline reads. -/
structure Obs where
  obsid : String
deriving DecidableEq

/-- One row of the MAST product table: the fields the pipeline reads.
`extensionCol` models the `extension` column, `productSubGroupDescription`
the calibration sub-group (e.g. `FLT`). -/
structure Product where
  productType : String
  extensionCol : String
  productSubGroupDescription : Option String
  dataURI : String
deriving DecidableEq

/-- Sky coordinates, as resolved by `SkyCoord.from_name`. -/
abbrev Coord := ℚ × ℚ

/-- Oracle for one run of the external MAST collaborators: the outcome of
`Observations.query_object`, `SkyCoord.from_name`,
`Observations.query_region` and `Observations.get_product_list`. -/
structure MastEnv where
  query_object : Except String (List Obs)
  from_name : Except String Coord
  query_region : Coord → Except String (List Obs)
  get_product_list : List String → Except String (List Product)

/-- `Observations.filter_products(products, productType="image",
extension="fits", productSubGroupDescription="FLT")` (lines 111-116). -/
def filter_products_flt (ps : List Product) : List Product :=
  ps.filter fun p =>
    p.productType == "image" && p.extensionCol == "fits"
      && p.productSubGroupDescription == some "FLT"

/-- `Observations.filter_products(products, productType="image",
extension="fits")` — the fallback filter (lines 119-124). -/
def filter_products_fits (ps : List Product) : List Product :=
  ps.filter fun p => p.productType == "image" && p.extensionCol == "fits"

/-- The product-filter step: prefer FLT-calibrated FITS images; if that
yields nothing, re-filter for any FITS image (lines 111-124). -/
def select_filtered (ps : List Product) : List Product :=
  let filtered := filter_products_flt ps
  if filtered.length = 0 then filter_products_fits ps else filtered

/-- `obs_ids = obs_table['obsid'][:10]` (line 107): the dataset identifiers
passed to `get_product_list`, capped at the first 10. -/
def dataset_ids (obs : List Obs) : List String := (obs.map (·.obsid)).take 10

/-- The part of `get_hubble_fits_urls` from the non-empty observation check
onward (lines 100-133): truncate ids, list products, filter with fallback,
and return up to 6 `dataURI`s (or `[]`). -/
def after_obs (env : MastEnv) (obs : List Obs) : Except String (List String) :=
  if obs.length = 0 then .ok []
  else
    match env.get_product_list (dataset_ids obs) with
    | .error e => .error e
    | .ok products =>
      let filtered := select_filtered products
      if 0 < filtered.length then .ok ((filtered.map (·.dataURI)).take 6)
      else .ok []

/-- The body of `get_hubble_fits_urls` (lines 82-133) before the outer
`except`:  query by name; if empty, try `SkyCoord.from_name` +
`query_region` under the inner bare `except:` (which returns `[]` from the
whole function); then proceed with the observation table. -/
def get_hubble_fits_urls_body (env : MastEnv) : Except String (List String) :=
  match env.query_object with
  | .error e => .error e
  | .ok obs0 =>
    if obs0.length = 0 then
      match env.from_name with
      | .error _ => .ok []
      | .ok coord =>
        match env.query_region coord with
        | .error _ => .ok []
        | .ok obs1 => after_obs env obs1
    else after_obs env obs0

/-- `get_hubble_fits_urls` with the outer `except Exception` (lines 135-137):
any escaping error is caught and the function returns the empty url list. -/
def get_hubble_fits_urls (env : MastEnv) : List String :=
  match get_hubble_fits_urls_body env with
  | .ok urls => urls
  | .error _ => []

/-! Concrete fixtures used to instantiate the theorems below. -/

/-- A 2×2 band with distinct pixel values, as a successful band load yields. -/
def demoBand : NDArr := ⟨[2, 2], [.fin 1, .fin 2, .fin 3, .fin 4]⟩

/-- A 2×2 band whose pixel values are all identical. -/
def constBand : NDArr := ⟨[2, 2], [.fin 5, .fin 5, .fin 5, .fin 5]⟩

/-- A 1×2 band with two distinct finite values. -/
def rampBand : NDArr := ⟨[1, 2], [.fin 0, .fin 1]⟩

/-- One possible behaviour of the external `make_lupton_rgb`: never raises. -/
def luptonOracle : NDArr → NDArr → NDArr → ℚ → ℚ → Except String NDArr :=
  fun r _ _ _ _ => .ok r

/-- A fetch oracle that raises on the first two attempts and succeeds from the
third on: under a budget of 2 the success is never reached. -/
def fetchFailTwice : ℕ → Except String Hdul :=
  fun i => if i < 2 then .error "ConnectionError" else .ok [⟨some demoBand, []⟩]

/-- A decoded container whose first extension has no data and whose second
extension holds a 2-D image. -/
def hdulTwoExt : Hdul := [⟨none, [("SIMPLE", "T")]⟩, ⟨some demoBand, [("XTENSION", "IMAGE")]⟩]

/-- A fetch oracle that succeeds immediately with `hdulTwoExt`. -/
def fetchTwoExt : ℕ → Except String Hdul := fun _ => .ok hdulTwoExt

/-- A product table with no FLT-calibrated entry but one generic FITS image. -/
def psGenericOnly : List Product :=
  [⟨"image", "fits", some "DRZ", "mast:HST/u1.fits"⟩,
   ⟨"spectrum", "fits", some "FLT", "mast:HST/u2.fits"⟩]

/-- A MAST oracle where the name query finds nothing and name resolution
raises. -/
def envResolveFails : MastEnv :=
  ⟨.ok [], .error "NameResolveError", fun _ => .ok [⟨"obs1"⟩], fun _ => .ok []⟩

end HubbleViewer

namespace HubbleViewer

/-! Helper lemmas shared by the claim theorems. -/

lemma ceil_as_floor (a : ℚ) : ⌈a⌉ = -⌊-a⌋ := by rw [Int.floor_neg, neg_neg]

lemma getD_eq_get (l : List ℚ) (n : ℕ) (h : n < l.length) :
    l.getD n 0 = l.get ⟨n, h⟩ := by
  induction l generalizing n with
  | nil => simp at h
  | cons x xs ih =>
    cases n with
    | zero => rfl
    | succ m => exact ih m (by simpa using h)

lemma sorted_getD_mono {ys : List ℚ} (hs : ys.Sorted (· ≤ ·)) {i j : ℕ}
    (hij : i ≤ j) (hj : j < ys.length) : ys.getD i 0 ≤ ys.getD j 0 := by
  have hi : i < ys.length := lt_of_le_of_lt hij hj
  rw [getD_eq_get _ _ hi, getD_eq_get _ _ hj]
  exact hs.rel_get_of_le (by exact hij)

end HubbleViewer

namespace HubbleViewer

/-- C9: the dataset identifiers passed to product listing are at most the
first 10 identifiers of the catalog result. -/
theorem C9_dataset_ids_capped (obs : List Obs) :
    (dataset_ids obs).length ≤ 10 ∧
    ∃ rest, obs.map (fun o => o.obsid) = dataset_ids obs ++ rest := by
  constructor
  · simp [dataset_ids]
  · refine ⟨(obs.map (fun o => o.obsid)).drop 10, ?_⟩
    unfold dataset_ids
    exact (List.take_append_drop 10 _).symm

/-- C10: with a non-positive `max_retries` the loop body never runs: no fetch
attempt is made and the function falls off the end, returning the bare value
`None` instead of a `(pixels, header)` pair. -/
theorem C10_nonpositive_retries_bare (fetch : ℕ → Except String Hdul) (max_retries : ℤ)
    (h : max_retries ≤ 0) :
    load_fits_from_url fetch max_retries = ⟨.bare, 0, 0⟩ := by
  unfold load_fits_from_url
  rw [Int.toNat_of_nonpos h]
  rfl

/-- Witness for C10 at `max_retries = -1`. -/
theorem C10_witness :
    load_fits_from_url fetchFailTwice (-1) = ⟨.bare, 0, 0⟩ :=
  C10_nonpositive_retries_bare fetchFailTwice (-1) (by decide)

/-- C4: `create_rgb_image` returns `None` whenever any of the three band
arguments is `None`, for every stretch, Q and `make_lupton_rgb` behaviour. -/
theorem C4_compose_none_band (lupton : NDArr → NDArr → NDArr → ℚ → ℚ → Except String NDArr)
    (r_data g_data b_data : Option NDArr) (stretch Q : ℚ)
    (h : r_data = none ∨ g_data = none ∨ b_data = none) :
    create_rgb_image lupton r_data g_data b_data stretch Q = none := by
  rcases h with rfl | rfl | rfl
  · cases hg : safe_normalize g_data with
    | error e => unfold create_rgb_image; rw [hg]; try rfl
    | ok gn =>
      cases hb : safe_normalize b_data with
      | error e => unfold create_rgb_image; rw [hg, hb]; try rfl
      | ok bn => unfold create_rgb_image; rw [hg, hb]; try rfl
  · cases hr : safe_normalize r_data with
    | error e => unfold create_rgb_image; rw [hr]; try rfl
    | ok rn =>
      cases hb : safe_normalize b_data with
      | error e => unfold create_rgb_image; rw [hr, hb]; try rfl
      | ok bn => unfold create_rgb_image; rw [hr, hb]; cases rn <;> rfl
  · cases hr : safe_normalize r_data with
    | error e => unfold create_rgb_image; rw [hr]; try rfl
    | ok rn =>
      cases hg : safe_normalize g_data with
      | error e => unfold create_rgb_image; rw [hr, hg]; try rfl
      | ok gn => unfold create_rgb_image; rw [hr, hg]; cases rn <;> cases gn <;> rfl

/-- Witness for C4: a `None` red band with present green and blue bands. -/
theorem C4_witness :
    create_rgb_image luptonOracle none (some demoBand) (some demoBand) (1/2) 10 = none :=
  C4_compose_none_band luptonOracle none (some demoBand) (some demoBand) (1/2) 10
    (Or.inl rfl)

/-- C7: when the FLT-preferring filter matches nothing but a generic FITS
image entry exists, the product-filter step returns exactly the generic FITS
image entries (and in particular a non-empty list). -/
theorem C7_filter_fallback (ps : List Product)
    (hflt : filter_products_flt ps = [])
    (hfits : filter_products_fits ps ≠ []) :
    select_filtered ps = filter_products_fits ps ∧ select_filtered ps ≠ [] := by
  unfold select_filtered
  rw [hflt]
  simp [hfits]

/-- Witness for C7 on a table with one generic FITS image and no FLT image. -/
theorem C7_witness :
    select_filtered psGenericOnly = filter_products_fits psGenericOnly ∧
    select_filtered psGenericOnly ≠ [] :=
  C7_filter_fallback psGenericOnly (by decide) (by decide)

/-- C8: if the name query returns zero observations, the locator re-queries
by resolved coordinates; if resolution fails or the re-query returns zero
observations the result is the empty url list (no exception escapes), and on
a successful re-query the pipeline continues with the re-queried
observations. -/
theorem C8_locator_fallback (env : MastEnv) (h0 : env.query_object = .ok []) :
    (((∃ e, env.from_name = .error e) ∨
        (∃ c, env.from_name = .ok c ∧ env.query_region c = .ok [])) →
      get_hubble_fits_urls env = []) ∧
    (∀ c obs, env.from_name = .ok c → env.query_region c = .ok obs →
      get_hubble_fits_urls_body env = after_obs env obs) := by
  constructor
  · rintro (⟨e, he⟩ | ⟨c, hc, hreg⟩)
    · simp [get_hubble_fits_urls, get_hubble_fits_urls_body, h0, he]
    · simp [get_hubble_fits_urls, get_hubble_fits_urls_body, h0, hc, hreg, after_obs]
  · intro c obs hc hreg
    simp [get_hubble_fits_urls_body, h0, hc, hreg]

lemma loadGo_attempts_le (fetch : ℕ → Except String Hdul) :
    ∀ remaining attempt, (loadGo fetch attempt remaining).attempts ≤ remaining := by
  intro remaining
  induction remaining with
  | zero => intro attempt; simp [loadGo]
  | succ r ih =>
    intro attempt
    unfold loadGo
    cases fetch attempt with
    | ok hdul => cases hf : firstImage hdul <;> simp [hf]
    | error e =>
      by_cases hr : 0 < r
      · simpa [hr] using ih (attempt + 1)
      · simp [hr]

lemma loadGo_allfail (fetch : ℕ → Except String Hdul) :
    ∀ remaining attempt, 0 < remaining →
      (∀ i, attempt ≤ i → i < attempt + remaining → ∃ e, fetch i = .error e) →
      ∃ e, loadGo fetch attempt remaining = ⟨.failWarn e, remaining, remaining - 1⟩ := by
  intro remaining
  induction remaining with
  | zero => intro attempt h; omega
  | succ r ih =>
    intro attempt _ hall
    obtain ⟨e, he⟩ := hall attempt le_rfl (by omega)
    by_cases hr : 0 < r
    · obtain ⟨e2, he2⟩ := ih (attempt + 1) hr (fun i h1 h2 => hall i (by omega) (by omega))
      refine ⟨e2, ?_⟩
      unfold loadGo
      rw [he]
      simp only [hr, if_pos, he2]
      congr 1
      omega
    · have hr0 : r = 0 := by omega
      subst hr0
      refine ⟨e, ?_⟩
      unfold loadGo
      rw [he]
      simp

/-- C5: `load_fits_from_url` makes at most `max_retries` fetch attempts, and
when every attempt in the budget raises it performs exactly `max_retries`
attempts with a 1-second sleep between consecutive raising attempts
(`max_retries - 1` sleeps) and returns the `(None, None)` failure carrying
the underlying error as a warning — so a reference that would only succeed
from the 3rd attempt on still fails under the default budget of 2. -/
theorem C5_retry_budget (fetch : ℕ → Except String Hdul) (max_retries : ℤ) :
    (load_fits_from_url fetch max_retries).attempts ≤ max_retries.toNat ∧
    ((∀ i : ℕ, (i : ℤ) < max_retries → ∃ e, fetch i = .error e) → 1 ≤ max_retries →
      ∃ e, load_fits_from_url fetch max_retries =
        ⟨.failWarn e, max_retries.toNat, max_retries.toNat - 1⟩) := by
  constructor
  · exact loadGo_attempts_le fetch _ 0
  · intro hall h1
    have hpos : 0 < max_retries.toNat := by omega
    exact loadGo_allfail fetch _ 0 hpos (fun i _ h2 => hall i (by omega))

/-- Witness for C5: a fetch that raises on attempts 0 and 1 and would succeed
from attempt 2 on, under `max_retries = 2`, still yields the warned failure
after exactly 2 attempts and 1 sleep. -/
theorem C5_witness :
    (load_fits_from_url fetchFailTwice 2).attempts ≤ (2 : ℤ).toNat ∧
    ∃ e, load_fits_from_url fetchFailTwice 2 =
      ⟨.failWarn e, (2 : ℤ).toNat, (2 : ℤ).toNat - 1⟩ := by
  obtain ⟨h1, h2⟩ := C5_retry_budget fetchFailTwice 2
  refine ⟨h1, h2 (fun i hi => ⟨"ConnectionError", ?_⟩) (by decide)⟩
  have : i < 2 := by omega
  simp [fetchFailTwice, this]

lemma firstImage_found_first : ∀ (l : Hdul) (d : NDArr) (hd : Header),
    firstImage l = some (d, hd) →
    ∃ k, ∃ hk : k < l.length,
      (l.get ⟨k, hk⟩).data = some d ∧ (l.get ⟨k, hk⟩).header = hd ∧
      2 ≤ d.shape.length ∧
      ∀ m (hm : m < k), ∀ a, (l.get ⟨m, Nat.lt_trans hm hk⟩).data = some a →
        a.shape.length < 2 := by
  intro l
  induction l with
  | nil => intro d hd h; simp [firstImage] at h
  | cons e rest ih =>
    intro d hd h
    cases he : e.data with
    | some a =>
      by_cases hlen : 2 ≤ a.shape.length
      · unfold firstImage at h
        rw [he] at h
        simp only [] at h
        rw [if_pos hlen] at h
        simp only [Option.some.injEq, Prod.mk.injEq] at h
        obtain ⟨rfl, rfl⟩ := h
        exact ⟨0, Nat.succ_pos _, he, rfl, hlen, fun m hm => absurd hm (Nat.not_lt_zero m)⟩
      · unfold firstImage at h
        rw [he] at h
        simp only [] at h
        rw [if_neg hlen] at h
        obtain ⟨k, hk, h1, h2, h3, h4⟩ := ih d hd h
        refine ⟨k + 1, Nat.succ_lt_succ hk, h1, h2, h3, ?_⟩
        intro m hm a2 ha2
        cases m with
        | zero =>
          have ha2e : e.data = some a2 := ha2
          rw [he] at ha2e
          injection ha2e with ha2e
          subst ha2e
          omega
        | succ m2 => exact h4 m2 (Nat.lt_of_succ_lt_succ hm) a2 ha2
    | none =>
      unfold firstImage at h
      rw [he] at h
      simp only [] at h
      obtain ⟨k, hk, h1, h2, h3, h4⟩ := ih d hd h
      refine ⟨k + 1, Nat.succ_lt_succ hk, h1, h2, h3, ?_⟩
      intro m hm a2 ha2
      cases m with
      | zero =>
        have ha2e : e.data = some a2 := ha2
        rw [he] at ha2e
        exact absurd ha2e (by simp)
      | succ m2 => exact h4 m2 (Nat.lt_of_succ_lt_succ hm) a2 ha2

lemma firstImage_none_sound : ∀ (l : Hdul), firstImage l = none →
    ∀ e ∈ l, ∀ a, e.data = some a → a.shape.length < 2 := by
  intro l
  induction l with
  | nil => intro _ e he; simp at he
  | cons x rest ih =>
    intro h e he a ha
    cases hx : x.data with
    | some b =>
      by_cases hlen : 2 ≤ b.shape.length
      · unfold firstImage at h
        rw [hx] at h
        simp only [] at h
        rw [if_pos hlen] at h
        exact absurd h (by simp)
      · unfold firstImage at h
        rw [hx] at h
        simp only [] at h
        rw [if_neg hlen] at h
        rcases List.mem_cons.mp he with rfl | hmem
        · rw [hx] at ha; injection ha with ha; subst ha; omega
        · exact ih h e hmem a ha
    | none =>
      unfold firstImage at h
      rw [hx] at h
      simp only [] at h
      rcases List.mem_cons.mp he with rfl | hmem
      · rw [hx] at ha; exact absurd ha (by simp)
      · exact ih h e hmem a ha

/-- C6: on a successful first fetch the loader scans the extensions in order
and returns the data and header of the first extension with present, at
least 2-dimensional data, using exactly one attempt; when no extension
qualifies it returns the `(None, None)` failure, again with exactly one
attempt (no retry is consumed on a content problem). -/
theorem C6_first_valid_extension (fetch : ℕ → Except String Hdul) (max_retries : ℤ)
    (hdul : Hdul) (h1 : 1 ≤ max_retries) (h0 : fetch 0 = .ok hdul) :
    (load_fits_from_url fetch max_retries =
      match firstImage hdul with
      | some dh => ⟨.found dh.1 dh.2, 1, 0⟩
      | none => ⟨.noImage, 1, 0⟩) ∧
    (∀ d hd, firstImage hdul = some (d, hd) →
      ∃ k, ∃ hk : k < hdul.length,
        (hdul.get ⟨k, hk⟩).data = some d ∧ (hdul.get ⟨k, hk⟩).header = hd ∧
        2 ≤ d.shape.length ∧
        ∀ m (hm : m < k), ∀ a, (hdul.get ⟨m, Nat.lt_trans hm hk⟩).data = some a →
          a.shape.length < 2) ∧
    (firstImage hdul = none →
      ∀ e ∈ hdul, ∀ a, e.data = some a → a.shape.length < 2) := by
  refine ⟨?_, fun d hd h => firstImage_found_first hdul d hd h,
    fun h => firstImage_none_sound hdul h⟩
  obtain ⟨r, hr⟩ : ∃ r, max_retries.toNat = r + 1 := ⟨max_retries.toNat - 1, by omega⟩
  unfold load_fits_from_url
  rw [hr]
  unfold loadGo
  rw [h0]

/-- Witness for C6 on a container whose first extension has no data and whose
second holds a 2-D image. -/
theorem C6_witness :
    (load_fits_from_url fetchTwoExt 2 =
      match firstImage hdulTwoExt with
      | some dh => ⟨.found dh.1 dh.2, 1, 0⟩
      | none => ⟨.noImage, 1, 0⟩) ∧
    (∀ d hd, firstImage hdulTwoExt = some (d, hd) →
      ∃ k, ∃ hk : k < hdulTwoExt.length,
        (hdulTwoExt.get ⟨k, hk⟩).data = some d ∧ (hdulTwoExt.get ⟨k, hk⟩).header = hd ∧
        2 ≤ d.shape.length ∧
        ∀ m (hm : m < k), ∀ a, (hdulTwoExt.get ⟨m, Nat.lt_trans hm hk⟩).data = some a →
          a.shape.length < 2) ∧
    (firstImage hdulTwoExt = none →
      ∀ e ∈ hdulTwoExt, ∀ a, e.data = some a → a.shape.length < 2) :=
  C6_first_valid_extension fetchTwoExt 2 hdulTwoExt (by decide) rfl

/-- C1: with three successfully loaded multi-element bands, the tab-1 guard
`all(bands_data.values())` itself raises `ValueError` (numpy array
truthiness), so the check is an unhandled fault on the success path; with a
missing band the guard short-circuits and the failure message is shown. -/
theorem C1_all_guard_raises :
    tab1_compose_step luptonOracle (1/2) 10 (some demoBand) (some demoBand) (some demoBand) =
      .error "ValueError: ambiguous truth value of an array" ∧
    tab1_compose_step luptonOracle (1/2) 10 none (some demoBand) (some demoBand) =
      .ok .loadFailedMsg :=
  ⟨rfl, rfl⟩

/-- C2: on a constant band the 1st and 99th percentile coincide, the rescale
divides 0 by 0, and `safe_normalize` returns an all-NaN band: the degenerate
case is not guarded. -/
theorem C2_constant_band_all_nan :
    safe_normalize (some constBand) = .ok (some ⟨[2, 2], [.nan, .nan, .nan, .nan]⟩) := by
  have hsort : ([(5:ℚ), 5, 5, 5].insertionSort (· ≤ ·)) = [5, 5, 5, 5] := by
    norm_num [List.insertionSort, List.orderedInsert]
  have h1 : percentile [(5:ℚ), 5, 5, 5] 1 = 5 := by
    unfold percentile
    rw [hsort]
    have hidx : (1 : ℚ) / 100 * ((([(5:ℚ), 5, 5, 5].length : ℕ) : ℚ) - 1) = 3/100 := by
      norm_num
    rw [hidx]
    have hf : (⌊(3:ℚ)/100⌋ : ℤ) = 0 := by norm_num
    have hc : (⌈(3:ℚ)/100⌉ : ℤ) = 1 := by rw [ceil_as_floor]; norm_num
    unfold percAt
    rw [hf, hc]
    simp only [show ([(5:ℚ), 5, 5, 5].getD (Int.toNat 0) 0) = 5 from rfl,
      show ([(5:ℚ), 5, 5, 5].getD (Int.toNat 1) 0) = 5 from rfl]
    norm_num
  have h99 : percentile [(5:ℚ), 5, 5, 5] 99 = 5 := by
    unfold percentile
    rw [hsort]
    have hidx : (99 : ℚ) / 100 * ((([(5:ℚ), 5, 5, 5].length : ℕ) : ℚ) - 1) = 297/100 := by
      norm_num
    rw [hidx]
    have hf : (⌊(297:ℚ)/100⌋ : ℤ) = 2 := by norm_num
    have hc : (⌈(297:ℚ)/100⌉ : ℤ) = 3 := by rw [ceil_as_floor]; norm_num
    unfold percAt
    rw [hf, hc]
    simp only [show ([(5:ℚ), 5, 5, 5].getD (Int.toNat 2) 0) = 5 from rfl,
      show ([(5:ℚ), 5, 5, 5].getD (Int.toNat 3) 0) = 5 from rfl]
    norm_num
  have hq : List.map nan_to_num [FV.fin 5, FV.fin 5, FV.fin 5, FV.fin 5] = [(5:ℚ), 5, 5, 5] :=
    rfl
  simp only [safe_normalize, constBand]
  rw [hq, h1, h99]
  norm_num [normScale, fdiv, clip]

lemma percAt_bounds {ys : List ℚ} (hs : ys.Sorted (· ≤ ·)) {h : ℚ}
    (h0 : 0 ≤ h) (hub : h ≤ (ys.length : ℚ) - 1) :
    ys.getD (Int.toNat ⌊h⌋) 0 ≤ percAt ys h ∧ percAt ys h ≤ ys.getD (Int.toNat ⌈h⌉) 0 := by
  have hlen : 1 ≤ ys.length := by
    by_contra hc
    have hz : ys.length = 0 := by omega
    rw [hz] at hub
    push_cast at hub
    linarith
  have hfl0 : (0:ℤ) ≤ ⌊h⌋ := Int.floor_nonneg.mpr h0
  have hcl : ⌈h⌉ ≤ (ys.length : ℤ) - 1 := by
    rw [Int.ceil_le]
    push_cast
    exact hub
  have hflcl : ⌊h⌋ ≤ ⌈h⌉ := Int.floor_le_ceil h
  have hj : Int.toNat ⌈h⌉ < ys.length := by omega
  have hLij : ys.getD (Int.toNat ⌊h⌋) 0 ≤ ys.getD (Int.toNat ⌈h⌉) 0 :=
    sorted_getD_mono hs (by omega) hj
  have hg0 : 0 ≤ h - (⌊h⌋ : ℚ) := sub_nonneg.mpr (Int.floor_le h)
  have hg1 : h - (⌊h⌋ : ℚ) ≤ 1 := by
    have := Int.lt_floor_add_one h
    linarith
  unfold percAt
  constructor
  · have := mul_nonneg hg0 (sub_nonneg.mpr hLij)
    linarith
  · have h2 := mul_le_mul_of_nonneg_right hg1 (sub_nonneg.mpr hLij)
    rw [one_mul] at h2
    linarith

lemma percAt_mono {ys : List ℚ} (hs : ys.Sorted (· ≤ ·)) {h1 h2 : ℚ}
    (h0 : 0 ≤ h1) (h12 : h1 ≤ h2) (hub : h2 ≤ (ys.length : ℚ) - 1) :
    percAt ys h1 ≤ percAt ys h2 := by
  have hub1 : h1 ≤ (ys.length : ℚ) - 1 := le_trans h12 hub
  have h02 : 0 ≤ h2 := le_trans h0 h12
  have hlen : 1 ≤ ys.length := by
    by_contra hc
    have hz : ys.length = 0 := by omega
    rw [hz] at hub
    push_cast at hub
    linarith
  have hfl01 : (0:ℤ) ≤ ⌊h1⌋ := Int.floor_nonneg.mpr h0
  have hfl02 : (0:ℤ) ≤ ⌊h2⌋ := Int.floor_nonneg.mpr h02
  have hcl2 : ⌈h2⌉ ≤ (ys.length : ℤ) - 1 := by
    rw [Int.ceil_le]
    push_cast
    exact hub
  have hcl1 : ⌈h1⌉ ≤ (ys.length : ℤ) - 1 := by
    rw [Int.ceil_le]
    push_cast
    exact hub1
  by_cases hAB : ⌈h1⌉ ≤ ⌊h2⌋
  · have hb1 := percAt_bounds hs h0 hub1
    have hb2 := percAt_bounds hs h02 hub
    refine le_trans hb1.2 (le_trans ?_ hb2.1)
    have hfc2 : ⌊h2⌋ ≤ ⌈h2⌉ := Int.floor_le_ceil h2
    exact sorted_getD_mono hs (by omega) (by omega)
  · push_neg at hAB
    have hf12 : ⌊h1⌋ ≤ ⌊h2⌋ := Int.floor_mono h12
    have hcf1 : ⌈h1⌉ ≤ ⌊h1⌋ + 1 := Int.ceil_le_floor_add_one h1
    have hcf2 : ⌈h2⌉ ≤ ⌊h2⌋ + 1 := Int.ceil_le_floor_add_one h2
    have hc12 : ⌈h1⌉ ≤ ⌈h2⌉ := Int.ceil_mono h12
    have hflcl1 : ⌊h1⌋ ≤ ⌈h1⌉ := Int.floor_le_ceil h1
    have hfe : ⌊h2⌋ = ⌊h1⌋ := by omega
    have hce : ⌈h2⌉ = ⌈h1⌉ := by omega
    unfold percAt
    rw [hfe, hce]
    have hjlt : Int.toNat ⌈h1⌉ < ys.length := by omega
    have hd : ys.getD (Int.toNat ⌊h1⌋) 0 ≤ ys.getD (Int.toNat ⌈h1⌉) 0 :=
      sorted_getD_mono hs (by omega) hjlt
    have hmul := mul_le_mul_of_nonneg_right
      (by linarith : h1 - (⌊h1⌋ : ℚ) ≤ h2 - (⌊h1⌋ : ℚ)) (sub_nonneg.mpr hd)
    linarith

lemma percentile_mono {xs : List ℚ} (hne : xs ≠ []) {q1 q2 : ℚ}
    (h0 : 0 ≤ q1) (h12 : q1 ≤ q2) (h100 : q2 ≤ 100) :
    percentile xs q1 ≤ percentile xs q2 := by
  unfold percentile
  have hlen : 1 ≤ xs.length := List.length_pos.mpr hne
  have hn1 : (0:ℚ) ≤ (xs.length : ℚ) - 1 := by
    have : (1:ℚ) ≤ (xs.length : ℚ) := by exact_mod_cast hlen
    linarith
  apply percAt_mono (List.sorted_insertionSort _ xs)
  · exact mul_nonneg (by positivity) hn1
  · exact mul_le_mul_of_nonneg_right (by linarith) hn1
  · rw [List.length_insertionSort]
    have hq1 : q2 / 100 ≤ 1 := by linarith
    calc q2 / 100 * ((xs.length : ℚ) - 1) ≤ 1 * ((xs.length : ℚ) - 1) :=
          mul_le_mul_of_nonneg_right hq1 hn1
      _ = (xs.length : ℚ) - 1 := one_mul _

lemma getD_map_normScale (f : ℚ → FV) (l : List ℚ) :
    ∀ i, i < l.length → (l.map f).getD i FV.nan = f (l.getD i 0) := by
  induction l with
  | nil => intro i hi; simp at hi
  | cons x xs ih =>
    intro i hi
    cases i with
    | zero => rfl
    | succ m => exact ih m (by simpa using hi)

lemma getD_map_ntn (l : List FV) :
    ∀ i, (l.map nan_to_num).getD i 0 = nan_to_num (l.getD i FV.nan) := by
  induction l with
  | nil => intro i; simp [nan_to_num]
  | cons x xs ih =>
    intro i
    cases i with
    | zero => rfl
    | succ m => exact ih m

lemma normScale_bounds {p_low p_high : ℚ} (hlt : p_low < p_high) (x : ℚ) :
    ∃ y : ℚ, normScale p_low p_high x = .fin y ∧ 0 ≤ y ∧ y ≤ 1 := by
  have hd : p_high - p_low ≠ 0 := ne_of_gt (by linarith)
  refine ⟨(clip x p_low p_high - p_low) / (p_high - p_low), ?_, ?_, ?_⟩
  · simp [normScale, fdiv, hd]
  · apply div_nonneg _ (by linarith)
    have hmem : p_low ≤ clip x p_low p_high :=
      le_min (le_max_right x p_low) hlt.le
    linarith
  · rw [div_le_one (by linarith)]
    have hmem : clip x p_low p_high ≤ p_high := min_le_right _ _
    linarith

lemma normScale_mono {p_low p_high : ℚ} (hlt : p_low < p_high) {x y : ℚ} (hxy : x ≤ y) :
    ∃ u v : ℚ, normScale p_low p_high x = .fin u ∧ normScale p_low p_high y = .fin v ∧
      u ≤ v := by
  have hd : p_high - p_low ≠ 0 := ne_of_gt (by linarith)
  refine ⟨(clip x p_low p_high - p_low) / (p_high - p_low),
    (clip y p_low p_high - p_low) / (p_high - p_low), ?_, ?_, ?_⟩
  · simp [normScale, fdiv, hd]
  · simp [normScale, fdiv, hd]
  · have hclip : clip x p_low p_high ≤ clip y p_low p_high :=
      min_le_min (max_le_max hxy le_rfl) le_rfl
    rw [div_le_div_iff_of_pos_right (by linarith)]
    linarith

/-- C3: on a band of finite values whose 1st and 99th percentiles differ,
`safe_normalize` succeeds, preserves the shape and pixel count, every output
pixel is a finite value in `[0, 1]`, and the output preserves the ordering of
the input pixels. -/
theorem C3_safe_normalize_range_mono (a : NDArr)
    (hfin : ∀ v ∈ a.flat, ∃ x : ℚ, v = FV.fin x)
    (hne : a.flat ≠ [])
    (hdiff : percentile (a.flat.map nan_to_num) 1 ≠ percentile (a.flat.map nan_to_num) 99) :
    ∃ out : NDArr,
      safe_normalize (some a) = .ok (some out) ∧
      out.shape = a.shape ∧
      out.flat.length = a.flat.length ∧
      (∀ v ∈ out.flat, ∃ x : ℚ, v = FV.fin x ∧ 0 ≤ x ∧ x ≤ 1) ∧
      (∀ i j : ℕ, i < a.flat.length → j < a.flat.length →
        nan_to_num (a.flat.getD i FV.nan) ≤ nan_to_num (a.flat.getD j FV.nan) →
        ∃ x y : ℚ, out.flat.getD i FV.nan = FV.fin x ∧
          out.flat.getD j FV.nan = FV.fin y ∧ x ≤ y) := by
  have hqne : a.flat.map nan_to_num ≠ [] := fun hcon => hne (List.map_eq_nil_iff.mp hcon)
  have hple : percentile (a.flat.map nan_to_num) 1 ≤ percentile (a.flat.map nan_to_num) 99 :=
    percentile_mono hqne (by norm_num) (by norm_num) (by norm_num)
  have hlt : percentile (a.flat.map nan_to_num) 1 < percentile (a.flat.map nan_to_num) 99 :=
    lt_of_le_of_ne hple hdiff
  have hb : (a.flat.map nan_to_num).isEmpty = false := by
    cases hq2 : a.flat.map nan_to_num with
    | nil => exact absurd hq2 hqne
    | cons x xs => rfl
  refine ⟨⟨a.shape, (a.flat.map nan_to_num).map
      (normScale (percentile (a.flat.map nan_to_num) 1)
        (percentile (a.flat.map nan_to_num) 99))⟩, ?_, rfl, ?_, ?_, ?_⟩
  · simp only [safe_normalize, hb, Bool.false_eq_true, if_false]
  · simp
  · intro v hv
    simp only [List.mem_map] at hv
    obtain ⟨x, hx, rfl⟩ := hv
    obtain ⟨y, hy, hy0, hy1⟩ := normScale_bounds hlt x
    exact ⟨y, hy, hy0, hy1⟩
  · intro i j hi hj hij
    have hi2 : i < (a.flat.map nan_to_num).length := by simpa using hi
    have hj2 : j < (a.flat.map nan_to_num).length := by simpa using hj
    rw [getD_map_normScale _ _ i hi2, getD_map_normScale _ _ j hj2]
    rw [← getD_map_ntn a.flat i, ← getD_map_ntn a.flat j] at hij
    exact normScale_mono hlt hij

/-- Witness for C3 on a 1×2 band with values 0 and 1 (1st percentile 1/100,
99th percentile 99/100). -/
theorem C3_witness :
    ∃ out : NDArr,
      safe_normalize (some rampBand) = .ok (some out) ∧
      out.shape = rampBand.shape ∧
      out.flat.length = rampBand.flat.length ∧
      (∀ v ∈ out.flat, ∃ x : ℚ, v = FV.fin x ∧ 0 ≤ x ∧ x ≤ 1) ∧
      (∀ i j : ℕ, i < rampBand.flat.length → j < rampBand.flat.length →
        nan_to_num (rampBand.flat.getD i FV.nan) ≤ nan_to_num (rampBand.flat.getD j FV.nan) →
        ∃ x y : ℚ, out.flat.getD i FV.nan = FV.fin x ∧
          out.flat.getD j FV.nan = FV.fin y ∧ x ≤ y) := by
  apply C3_safe_normalize_range_mono rampBand
  · intro v hv
    simp only [rampBand, List.mem_cons, List.not_mem_nil, or_false] at hv
    rcases hv with rfl | rfl
    · exact ⟨0, rfl⟩
    · exact ⟨1, rfl⟩
  · simp [rampBand]
  · have hq : rampBand.flat.map nan_to_num = [(0:ℚ), 1] := rfl
    rw [hq]
    have hsort : ([(0:ℚ), 1].insertionSort (· ≤ ·)) = [0, 1] := by
      norm_num [List.insertionSort, List.orderedInsert]
    have h1 : percentile [(0:ℚ), 1] 1 = 1/100 := by
      unfold percentile
      rw [hsort]
      have hidx : (1 : ℚ) / 100 * ((([(0:ℚ), 1].length : ℕ) : ℚ) - 1) = 1/100 := by norm_num
      rw [hidx]
      have hf : (⌊(1:ℚ)/100⌋ : ℤ) = 0 := by norm_num
      have hc : (⌈(1:ℚ)/100⌉ : ℤ) = 1 := by rw [ceil_as_floor]; norm_num
      unfold percAt
      rw [hf, hc]
      simp only [show ([(0:ℚ), 1].getD (Int.toNat 0) 0) = 0 from rfl,
        show ([(0:ℚ), 1].getD (Int.toNat 1) 0) = 1 from rfl]
      norm_num
    have h99 : percentile [(0:ℚ), 1] 99 = 99/100 := by
      unfold percentile
      rw [hsort]
      have hidx : (99 : ℚ) / 100 * ((([(0:ℚ), 1].length : ℕ) : ℚ) - 1) = 99/100 := by norm_num
      rw [hidx]
      have hf : (⌊(99:ℚ)/100⌋ : ℤ) = 0 := by norm_num
      have hc : (⌈(99:ℚ)/100⌉ : ℤ) = 1 := by rw [ceil_as_floor]; norm_num
      unfold percAt
      rw [hf, hc]
      simp only [show ([(0:ℚ), 1].getD (Int.toNat 0) 0) = 0 from rfl,
        show ([(0:ℚ), 1].getD (Int.toNat 1) 0) = 1 from rfl]
      norm_num
    rw [h1, h99]
    norm_num

/-- Witness for C8: name query empty and name resolution raising. -/
theorem C8_witness :
    (((∃ e, envResolveFails.from_name = .error e) ∨
        (∃ c, envResolveFails.from_name = .ok c ∧ envResolveFails.query_region c = .ok [])) →
      get_hubble_fits_urls envResolveFails = []) ∧
    (∀ c obs, envResolveFails.from_name = .ok c → envResolveFails.query_region c = .ok obs →
      get_hubble_fits_urls_body envResolveFails = after_obs envResolveFails obs) :=
  C8_locator_fallback envResolveFails rfl

end HubbleViewer
